import Mathlib

/-!
Shallow embedding of the yield-model simulation in
`src/math/test_yield_model.py`: a daily-compounding `Vault` plus a
bonding-curve pool `LP` with dynamic virtual reserves and
fair-share-capped withdrawals.

Modelling conventions:
* Python `Decimal` values are modelled by exact rationals (`ℚ`).
  `Decimal` division rounds to its working precision while `ℚ` is exact;
  the specification states its arithmetic properties "within fixed-point
  rounding tolerance", so the exact-rational model is the intended
  idealisation.
* Python dictionaries keyed by user name are modelled as functions
  `String → Option _`; a `none` entry is an absent key.
* Python exceptions are modelled by `Except` results.  The error payload
  carries the state at the moment of the raise, because mutations that a
  method performed before raising persist on the shared objects.
-/

namespace YieldModel

def K : ℚ := 1000

def B : ℚ := 1000000000

/-- price movement amplification -/
def EXPOSURE_FACTOR : ℚ := 100 * K

/-- cap -/
def CAP : ℚ := 1 * B

/-- max USDC before virtual liquidity vanishes -/
def VIRTUAL_LIMIT : ℚ := 100 * K

structure User where
  name : String
  balance_usd : ℚ
  balance_token : ℚ
deriving DecidableEq

structure CompoundingSnapshot where
  value : ℚ
  index : ℚ
deriving DecidableEq

structure Vault where
  apy : ℚ
  balance_usd : ℚ
  compounding_index : ℚ
  snapshot : Option CompoundingSnapshot
  compounds : ℕ
deriving DecidableEq

def Vault.init : Vault :=
  { apy := 5 / 100
    balance_usd := 0
    compounding_index := 1
    snapshot := none
    compounds := 0 }

def Vault.balance_of (v : Vault) : ℚ :=
  match v.snapshot with
  | none => v.balance_usd
  | some s => s.value * (v.compounding_index / s.index)

def Vault.add (v : Vault) (value : ℚ) : Vault :=
  let v1 : Vault := { v with snapshot := some ⟨value + v.balance_of, v.compounding_index⟩ }
  { v1 with balance_usd := v1.balance_of }

/-- `remove` raises "Nothing staked!" when no snapshot exists; that raise
happens before any mutation, so the `none` result stands for an unchanged
vault. -/
def Vault.remove (v : Vault) (value : ℚ) : Option Vault :=
  match v.snapshot with
  | none => none
  | some _ =>
    let v1 : Vault := { v with snapshot := some ⟨v.balance_of - value, v.compounding_index⟩ }
    some { v1 with balance_usd := v1.balance_of }

/-- The daily compounding loop of `Vault.compound`: one multiplication by
`1 + apy/365` per elapsed day. -/
def compoundIndexLoop (apy index : ℚ) : ℕ → ℚ
  | 0 => index
  | days + 1 => compoundIndexLoop apy index days * (1 + apy / 365)

def Vault.compound (v : Vault) (days : ℕ) : Vault :=
  { v with
    compounding_index := compoundIndexLoop v.apy v.compounding_index days
    compounds := v.compounds + days }

structure UserSnapshot where
  index : ℚ
deriving DecidableEq

/-- Update one key of a name-keyed dictionary. -/
def updateFn {α : Type} (f : String → Option α) (key : String) (value : α) :
    String → Option α :=
  fun s => if s = key then some value else f s

/-- Delete one key of a name-keyed dictionary. -/
def eraseFn {α : Type} (f : String → Option α) (key : String) : String → Option α :=
  fun s => if s = key then none else f s

structure LP where
  balance_usd : ℚ
  balance_token : ℚ
  minted : ℚ
  liquidity_token : String → Option ℚ
  liquidity_usd : String → Option ℚ
  user_buy_usdc : String → Option ℚ
  user_snapshot : String → Option UserSnapshot
  vault : Vault
  k : Option ℚ
  buy_usdc : ℚ
  lp_usdc : ℚ
  virtual_liquidity : ℚ

def LP.init (vault : Vault) : LP :=
  { balance_usd := 0
    balance_token := 0
    minted := 0
    liquidity_token := fun _ => none
    liquidity_usd := fun _ => none
    user_buy_usdc := fun _ => none
    user_snapshot := fun _ => none
    vault := vault
    k := none
    buy_usdc := 0
    lp_usdc := 0
    virtual_liquidity := CAP / EXPOSURE_FACTOR }

def LP.get_buy_usdc_with_yield (lp : LP) : ℚ :=
  if lp.buy_usdc = 0 ∧ lp.lp_usdc = 0 then 0
  else
    let total_principal := lp.buy_usdc + lp.lp_usdc
    if total_principal = 0 then 0
    else lp.buy_usdc * (lp.vault.balance_of / total_principal)

def LP.get_exposure (lp : LP) : ℚ :=
  let effective := min (lp.minted * 1000) CAP
  let exposure := EXPOSURE_FACTOR * (1 - effective / CAP)
  max 0 exposure

def LP.get_token_reserve (lp : LP) : ℚ :=
  let exposure := lp.get_exposure
  if exposure > 0 then (CAP - lp.minted) / exposure else CAP - lp.minted

def LP.get_virtual_liquidity (lp : LP) : ℚ :=
  let base := CAP / EXPOSURE_FACTOR
  let effective := min lp.buy_usdc VIRTUAL_LIMIT
  let liquidity := base * (1 - effective / VIRTUAL_LIMIT)
  let token_reserve := lp.get_token_reserve
  let floor_liquidity := token_reserve - lp.buy_usdc
  max 0 (max liquidity floor_liquidity)

def LP.get_usdc_reserve (lp : LP) : ℚ :=
  lp.get_buy_usdc_with_yield + lp.get_virtual_liquidity

def LP.price (lp : LP) : ℚ :=
  let token_reserve := lp.get_token_reserve
  let usdc_reserve := lp.get_usdc_reserve
  if token_reserve = 0 then 1 else usdc_reserve / token_reserve

def LP.update_k (lp : LP) : LP :=
  { lp with k := some (lp.get_token_reserve * lp.get_usdc_reserve) }

def LP.apply_fair_share_cap (lp : LP) (requested_amount user_fraction : ℚ) : ℚ :=
  let vault_available := lp.vault.balance_of
  let fair_share := user_fraction * vault_available
  min requested_amount (min fair_share vault_available)

def LP.get_fair_share_scaling
    (lp : LP) (requested_total_usdc user_principal total_principal : ℚ) : ℚ :=
  let vault_available := lp.vault.balance_of
  if 0 < total_principal ∧ 0 < requested_total_usdc then
    let fraction := user_principal / total_principal
    let fair_share := fraction * vault_available
    min 1 (min (fair_share / requested_total_usdc) (vault_available / requested_total_usdc))
  else if 0 < requested_total_usdc then
    min 1 (vault_available / requested_total_usdc)
  else 1

/-- The value `_get_out_amount` stores into `self.k` on entry: the stored
`k` when present, else the first-trade initialisation
`token_reserve * virtual_liquidity`. -/
def LP.kv (lp : LP) : ℚ :=
  match lp.k with
  | none => lp.get_token_reserve * lp.get_virtual_liquidity
  | some v => v

def LP.get_out_amount (lp : LP) (sold_amount : ℚ) (selling_token : Bool) : LP × ℚ :=
  let lp1 : LP := { lp with k := some lp.kv }
  let token_reserve := lp1.get_token_reserve
  let usdc_reserve := lp1.get_usdc_reserve
  if selling_token then
    let new_token_reserve := token_reserve + sold_amount
    let new_usdc_reserve := lp.kv / new_token_reserve
    let usdc_out_curve := usdc_reserve - new_usdc_reserve
    if lp1.minted = 0 then
      (lp1, min usdc_out_curve lp1.vault.balance_of)
    else
      (lp1, lp1.apply_fair_share_cap usdc_out_curve (sold_amount / lp1.minted))
  else
    let new_usdc_reserve := usdc_reserve + sold_amount
    let new_token_reserve := lp.kv / new_usdc_reserve
    (lp1, token_reserve - new_token_reserve)

/-- `mint` raises "Cannot mint over cap" before mutating anything, so the
`none` result stands for an unchanged pool. -/
def LP.mint (lp : LP) (amount : ℚ) : Option LP :=
  if lp.minted + amount > CAP then none
  else some { lp with
    balance_token := lp.balance_token + amount
    minted := lp.minted + amount }

def LP.rehypo (lp : LP) : LP :=
  { lp with vault := lp.vault.add lp.balance_usd, balance_usd := 0 }

def LP.dehypo (lp : LP) (amount : ℚ) : Option LP :=
  match lp.vault.remove amount with
  | none => none
  | some v => some { lp with vault := v, balance_usd := lp.balance_usd + amount }

inductive Err
  | capExceeded
  | nothingStaked
  | keyError
deriving DecidableEq

/-- Result of a public pool operation.  The error payload is the
partially-mutated pool and user at the moment of the raise. -/
abbrev PoolResult := Except (Err × LP × User) (LP × User)

def stateOf : PoolResult → LP
  | .ok (lp, _) => lp
  | .error (_, lp, _) => lp

def userOf : PoolResult → User
  | .ok (_, u) => u
  | .error (_, _, u) => u

def errOf : PoolResult → Option Err
  | .ok _ => none
  | .error (e, _, _) => some e

def isOk : PoolResult → Bool
  | .ok _ => true
  | .error _ => false

def LP.add_liquidity (lp : LP) (user : User) (token_amount usd_amount : ℚ) :
    LP × User :=
  let user1 : User := { user with
    balance_token := user.balance_token - token_amount
    balance_usd := user.balance_usd - usd_amount }
  let lp1 : LP := { lp with
    balance_token := lp.balance_token + token_amount
    balance_usd := lp.balance_usd + usd_amount }
  let lp2 : LP := { lp1 with lp_usdc := lp1.lp_usdc + usd_amount }
  let lp3 := lp2.rehypo
  let lp4 : LP :=
    match lp3.k with
    | none => lp3.update_k
    | some _ => lp3
  let lp5 : LP := { lp4 with
    user_snapshot := updateFn lp4.user_snapshot user.name ⟨lp4.vault.compounding_index⟩ }
  let lp6 : LP := { lp5 with
    liquidity_token :=
      updateFn lp5.liquidity_token user.name
        ((lp5.liquidity_token user.name).getD 0 + token_amount)
    liquidity_usd :=
      updateFn lp5.liquidity_usd user.name
        ((lp5.liquidity_usd user.name).getD 0 + usd_amount) }
  (lp6, user1)

def LP.remove_liquidity (lp : LP) (user : User) : PoolResult :=
  match lp.liquidity_token user.name, lp.liquidity_usd user.name,
      lp.user_snapshot user.name with
  | some token_deposit, some usd_deposit, some snap =>
    let buy_usdc_principal := (lp.user_buy_usdc user.name).getD 0
    let delta := lp.vault.compounding_index / snap.index
    let usd_yield := usd_deposit * (delta - 1)
    let usd_amount_full := usd_deposit + usd_yield
    let token_yield_full := token_deposit * (delta - 1)
    let buy_usdc_yield_full := buy_usdc_principal * (delta - 1)
    let total_usdc_full := usd_amount_full + buy_usdc_yield_full
    let principal := usd_deposit + buy_usdc_principal
    let total_principal := lp.lp_usdc + lp.buy_usdc
    let scaling_factor := lp.get_fair_share_scaling total_usdc_full principal total_principal
    let total_usdc := total_usdc_full * scaling_factor
    let token_yield := token_yield_full * scaling_factor
    let token_amount := token_deposit + token_yield
    match lp.mint token_yield with
    | none => .error (.capExceeded, lp, user)
    | some lp1 =>
      match lp1.dehypo total_usdc with
      | none => .error (.nothingStaked, lp1, user)
      | some lp2 =>
        let lp3 : LP := { lp2 with lp_usdc := lp2.lp_usdc - usd_deposit }
        let buy_usdc_yield_actual := buy_usdc_yield_full * scaling_factor
        let lp4 : LP := { lp3 with buy_usdc := lp3.buy_usdc - buy_usdc_yield_actual }
        let lp5 : LP := { lp4 with
          balance_token := lp4.balance_token - token_amount
          balance_usd := lp4.balance_usd - total_usdc }
        let user1 : User := { user with
          balance_token := user.balance_token + token_amount
          balance_usd := user.balance_usd + total_usdc }
        let lp6 : LP := { lp5 with
          liquidity_token := eraseFn lp5.liquidity_token user.name
          liquidity_usd := eraseFn lp5.liquidity_usd user.name
          user_buy_usdc := eraseFn lp5.user_buy_usdc user.name }
        .ok (lp6, user1)
  | _, _, _ => .error (.keyError, lp, user)

def LP.buy (lp : LP) (user : User) (amount : ℚ) : PoolResult :=
  let user1 : User := { user with balance_usd := user.balance_usd - amount }
  let lp1 : LP := { lp with balance_usd := lp.balance_usd + amount }
  let q := lp1.get_out_amount amount false
  let lp2 := q.1
  let out_amount := q.2
  match lp2.mint out_amount with
  | none => .error (.capExceeded, lp2, user1)
  | some lp3 =>
    let lp4 : LP := { lp3 with balance_token := lp3.balance_token - out_amount }
    let user2 : User := { user1 with balance_token := user1.balance_token + out_amount }
    let lp5 : LP := { lp4 with buy_usdc := lp4.buy_usdc + amount }
    let lp6 : LP := { lp5 with
      user_buy_usdc :=
        updateFn lp5.user_buy_usdc user.name
          ((lp5.user_buy_usdc user.name).getD 0 + amount) }
    let lp7 := lp6.rehypo
    .ok (lp7.update_k, user2)

def LP.sell (lp : LP) (user : User) (amount : ℚ) : PoolResult :=
  let user1 : User := { user with balance_token := user.balance_token - amount }
  let lp1 : LP := { lp with minted := lp.minted - amount }
  let q := lp1.get_out_amount amount true
  let lp2 := q.1
  let out_amount := q.2
  let lp3 : LP := { lp2 with buy_usdc := lp2.buy_usdc - out_amount }
  match lp3.dehypo out_amount with
  | none => .error (.nothingStaked, lp3, user1)
  | some lp4 =>
    let lp5 : LP := { lp4 with balance_usd := lp4.balance_usd - out_amount }
    let user2 : User := { user1 with balance_usd := user1.balance_usd + out_amount }
    .ok (lp5.update_k, user2)

/-- Sequences of the two supply-increasing public calls (claim C3 is about
sequences of `buy` and `remove_liquidity`).  A call that raises leaves the
pool in its raise-time state. -/
inductive PoolCall
  | buy (user : User) (amount : ℚ)
  | removeLiquidity (user : User)

def LP.step (lp : LP) : PoolCall → LP
  | .buy user amount => stateOf (lp.buy user amount)
  | .removeLiquidity user => stateOf (lp.remove_liquidity user)

def LP.run (lp : LP) : List PoolCall → LP
  | [] => lp
  | c :: cs => (lp.step c).run cs

/-! ### Basic lemmas about the embedding -/

theorem updateFn_self {α : Type} (f : String → Option α) (key : String) (value : α) :
    updateFn f key value key = some value := by
  simp [updateFn]

theorem compoundIndexLoop_eq (apy index : ℚ) (days : ℕ) :
    compoundIndexLoop apy index days = index * (1 + apy / 365) ^ days := by
  induction days with
  | zero => simp [compoundIndexLoop]
  | succ d ih => rw [compoundIndexLoop, ih, pow_succ, mul_assoc]

theorem Vault.compound_snapshot (v : Vault) (days : ℕ) :
    (v.compound days).snapshot = v.snapshot := rfl

theorem Vault.add_balance_of (v : Vault) (x : ℚ)
    (h : v.compounding_index ≠ 0) : (v.add x).balance_of = x + v.balance_of := by
  simp [Vault.add, Vault.balance_of, div_self h]

theorem Vault.add_compounding_index (v : Vault) (x : ℚ) :
    (v.add x).compounding_index = v.compounding_index := rfl

theorem Vault.add_snapshot_ne (v : Vault) (x : ℚ) : (v.add x).snapshot ≠ none := by
  simp [Vault.add]

theorem LP.mint_some {lp lp2 : LP} {a : ℚ} (h : lp.mint a = some lp2) :
    lp2.minted = lp.minted + a ∧ lp.minted + a ≤ CAP ∧
    lp2.balance_token = lp.balance_token + a ∧ lp2.balance_usd = lp.balance_usd ∧
    lp2.k = lp.k ∧ lp2.vault = lp.vault ∧ lp2.buy_usdc = lp.buy_usdc ∧
    lp2.lp_usdc = lp.lp_usdc := by
  unfold LP.mint at h
  by_cases hcap : lp.minted + a > CAP
  · rw [if_pos hcap] at h
    exact absurd h (by simp)
  · rw [if_neg hcap] at h
    injection h with h
    subst h
    exact ⟨rfl, not_lt.mp hcap, rfl, rfl, rfl, rfl, rfl, rfl⟩

theorem LP.dehypo_some {lp lp2 : LP} {a : ℚ} (h : lp.dehypo a = some lp2) :
    lp2.balance_usd = lp.balance_usd + a ∧ lp2.minted = lp.minted ∧
    lp2.k = lp.k ∧ lp2.buy_usdc = lp.buy_usdc ∧ lp2.lp_usdc = lp.lp_usdc ∧
    lp2.balance_token = lp.balance_token := by
  unfold LP.dehypo at h
  rcases hv : lp.vault.remove a with _ | v
  · rw [hv] at h
    exact absurd h (by simp)
  · rw [hv] at h
    simp only [Option.some.injEq] at h
    subst h
    exact ⟨rfl, rfl, rfl, rfl, rfl, rfl⟩

theorem LP.dehypo_of_snapshot {lp : LP} {a : ℚ} (h : lp.vault.snapshot ≠ none) :
    ∃ lp2, lp.dehypo a = some lp2 := by
  unfold LP.dehypo Vault.remove
  rcases hs : lp.vault.snapshot with _ | s
  · exact absurd hs h
  · exact ⟨_, rfl⟩

/-- The pool returned by `_get_out_amount` differs from its input only in
the (possibly initialised) invariant `k`. -/
theorem LP.get_out_amount_fst (lp : LP) (s : ℚ) (b : Bool) :
    (lp.get_out_amount s b).1 = { lp with k := some lp.kv } := by
  unfold LP.get_out_amount
  cases b
  · rfl
  · dsimp only
    split
    · split <;> rfl
    · rfl

/-- One public call (`buy` or `remove_liquidity`) preserves `minted ≤ CAP`,
whether it completes or raises. -/
theorem LP.step_minted_le (lp : LP) (c : PoolCall) (h : lp.minted ≤ CAP) :
    (lp.step c).minted ≤ CAP := by
  cases c with
  | buy user amount =>
    simp only [LP.step, LP.buy]
    split
    · simp only [stateOf]
      rw [LP.get_out_amount_fst]
      exact h
    · rename_i lp3 hmint
      simp only [stateOf]
      have h3 := LP.mint_some hmint
      show lp3.minted ≤ CAP
      rw [h3.1]
      exact h3.2.1
  | removeLiquidity user =>
    simp only [LP.step, LP.remove_liquidity]
    split
    · split
      · simp only [stateOf]
        exact h
      · rename_i lp1 hmint
        split
        · simp only [stateOf]
          rw [(LP.mint_some hmint).1]
          exact (LP.mint_some hmint).2.1
        · rename_i lp2 hdeh
          simp only [stateOf]
          show lp2.minted ≤ CAP
          rw [(LP.dehypo_some hdeh).2.1, (LP.mint_some hmint).1]
          exact (LP.mint_some hmint).2.1
    · simp only [stateOf]
      exact h

theorem LP.run_minted_le (lp : LP) (cs : List PoolCall) (h : lp.minted ≤ CAP) :
    (lp.run cs).minted ≤ CAP := by
  induction cs generalizing lp with
  | nil => exact h
  | cons c cs ih => exact ih _ (LP.step_minted_le lp c h)

/-! ### Claim C3: the minted supply can never exceed `CAP` -/

/-- Claim C3: starting from any pool with `minted ≤ CAP`, no sequence of
`buy` and `remove_liquidity` calls can leave `minted > CAP` (raising calls
included, since each call's raise-time state is retained); and whenever a
call raises the cap-exceeded error, `minted` is unchanged by that call. -/
theorem cap_never_exceeded (lp : LP) (cs : List PoolCall) (user : User) (amt : ℚ)
    (h : lp.minted ≤ CAP) :
    (lp.run cs).minted ≤ CAP ∧
    (errOf (lp.buy user amt) = some .capExceeded →
      (stateOf (lp.buy user amt)).minted = lp.minted) ∧
    (errOf (lp.remove_liquidity user) = some .capExceeded →
      (stateOf (lp.remove_liquidity user)).minted = lp.minted) := by
  refine ⟨LP.run_minted_le lp cs h, ?_, ?_⟩
  · simp only [LP.buy]
    split
    · intro _
      simp only [stateOf]
      rw [LP.get_out_amount_fst]
    · intro hc
      simp [errOf] at hc
  · simp only [LP.remove_liquidity]
    split
    · split
      · intro _
        rfl
      · split
        · intro hc
          simp [errOf] at hc
        · intro hc
          simp [errOf] at hc
    · intro hc
      simp [errOf] at hc

/-- Witness for C3: a two-call sequence from the fresh pool. -/
theorem cap_never_exceeded_witness :
    ((LP.init Vault.init).run
      [PoolCall.buy ⟨"a", 1000, 0⟩ 500, PoolCall.removeLiquidity ⟨"a", 1000, 0⟩]).minted
      ≤ CAP :=
  (cap_never_exceeded (LP.init Vault.init) _ ⟨"a", 1000, 0⟩ 500
    (by norm_num [LP.init, CAP, B])).1

theorem LP.get_token_reserve_set_k (lp : LP) (c : Option ℚ) :
    ({ lp with k := c } : LP).get_token_reserve = lp.get_token_reserve := rfl

theorem LP.get_usdc_reserve_set_k (lp : LP) (c : Option ℚ) :
    ({ lp with k := c } : LP).get_usdc_reserve = lp.get_usdc_reserve := rfl

/-- After a completed `buy`, `k` equals the reserve product recomputed from
the post-trade state (`_update_k` is the last step of `buy`). -/
theorem LP.buy_ok_k (lp : LP) (user : User) (amt : ℚ)
    (h : isOk (lp.buy user amt) = true) :
    (stateOf (lp.buy user amt)).k =
      some ((stateOf (lp.buy user amt)).get_token_reserve *
        (stateOf (lp.buy user amt)).get_usdc_reserve) := by
  revert h
  simp only [LP.buy]
  split
  · intro h
    simp [isOk] at h
  · intro _
    rfl

/-- After a completed `sell`, `k` equals the reserve product recomputed
from the post-trade state. -/
theorem LP.sell_ok_k (lp : LP) (user : User) (amt : ℚ)
    (h : isOk (lp.sell user amt) = true) :
    (stateOf (lp.sell user amt)).k =
      some ((stateOf (lp.sell user amt)).get_token_reserve *
        (stateOf (lp.sell user amt)).get_usdc_reserve) := by
  revert h
  simp only [LP.sell]
  split
  · intro h
    simp [isOk] at h
  · intro _
    rfl

/-- The USDC quoted by `_get_out_amount` on a sell never exceeds the vault
balance, and never exceeds the seller's pro-rata share
`sold/minted * vault_balance` when tokens are in circulation. -/
theorem LP.get_out_amount_sell_le (lp : LP) (amt : ℚ) :
    (lp.get_out_amount amt true).2 ≤ lp.vault.balance_of ∧
    (lp.minted ≠ 0 →
      (lp.get_out_amount amt true).2 ≤ amt / lp.minted * lp.vault.balance_of) := by
  simp only [LP.get_out_amount, LP.apply_fair_share_cap]
  split
  · split
    · rename_i hm0
      exact ⟨min_le_right _ _, fun hm => absurd hm0 hm⟩
    · constructor
      · exact le_trans (min_le_right _ _) (min_le_right _ _)
      · intro _
        exact le_trans (min_le_right _ _) (min_le_left _ _)
  · rename_i hf
    exact absurd trivial hf

/-- Payout bounds of the fair-share scaling factor: with positive total
principal and a positive request, the scaled payout is at most the vault
balance and at most the requester's pro-rata share of it. -/
theorem LP.fair_share_scaling_le (lp : LP) (req p tp : ℚ)
    (htp : 0 < tp) (hreq : 0 < req) :
    req * lp.get_fair_share_scaling req p tp ≤ lp.vault.balance_of ∧
    req * lp.get_fair_share_scaling req p tp ≤ p / tp * lp.vault.balance_of := by
  unfold LP.get_fair_share_scaling
  rw [if_pos ⟨htp, hreq⟩]
  constructor
  · have h1 : min 1 (min (p / tp * lp.vault.balance_of / req) (lp.vault.balance_of / req)) ≤
        lp.vault.balance_of / req :=
      le_trans (min_le_right _ _) (min_le_right _ _)
    calc req * min 1 (min (p / tp * lp.vault.balance_of / req) (lp.vault.balance_of / req))
        ≤ req * (lp.vault.balance_of / req) := mul_le_mul_of_nonneg_left h1 hreq.le
      _ = lp.vault.balance_of := by
          rw [mul_comm, div_mul_cancel₀ _ (ne_of_gt hreq)]
  · have h1 : min 1 (min (p / tp * lp.vault.balance_of / req) (lp.vault.balance_of / req)) ≤
        p / tp * lp.vault.balance_of / req :=
      le_trans (min_le_right _ _) (min_le_left _ _)
    calc req * min 1 (min (p / tp * lp.vault.balance_of / req) (lp.vault.balance_of / req))
        ≤ req * (p / tp * lp.vault.balance_of / req) := mul_le_mul_of_nonneg_left h1 hreq.le
      _ = p / tp * lp.vault.balance_of := by
          rw [mul_comm, div_mul_cancel₀ _ (ne_of_gt hreq)]

/-- When the vault can fully back the requested amount and the requester's
fair share covers it, the scaling factor is exactly 1 (no haircut). -/
theorem LP.fair_share_scaling_eq_one (lp : LP) (req p tp : ℚ)
    (htp : 0 < tp) (hreq : 0 < req)
    (h1 : req * tp ≤ p * lp.vault.balance_of)
    (h2 : req ≤ lp.vault.balance_of) :
    lp.get_fair_share_scaling req p tp = 1 := by
  unfold LP.get_fair_share_scaling
  rw [if_pos ⟨htp, hreq⟩]
  have ha : (1 : ℚ) ≤ p / tp * lp.vault.balance_of / req := by
    rw [le_div_iff₀ hreq, one_mul, div_mul_eq_mul_div, le_div_iff₀ htp, mul_comm req tp,
      mul_comm p lp.vault.balance_of]
    calc tp * req = req * tp := mul_comm _ _
      _ ≤ p * lp.vault.balance_of := h1
      _ = lp.vault.balance_of * p := mul_comm _ _
  have hb : (1 : ℚ) ≤ lp.vault.balance_of / req := by
    rw [le_div_iff₀ hreq, one_mul]
    exact h2
  rw [min_eq_left (le_min ha hb)]

/-- Field-level description of the state after `add_liquidity`. -/
theorem LP.add_liquidity_fields (lp : LP) (user : User) (t u : ℚ) :
    (lp.add_liquidity user t u).2 =
      ⟨user.name, user.balance_usd - u, user.balance_token - t⟩ ∧
    (lp.add_liquidity user t u).1.liquidity_token user.name =
      some ((lp.liquidity_token user.name).getD 0 + t) ∧
    (lp.add_liquidity user t u).1.liquidity_usd user.name =
      some ((lp.liquidity_usd user.name).getD 0 + u) ∧
    (lp.add_liquidity user t u).1.user_snapshot user.name =
      some ⟨lp.vault.compounding_index⟩ ∧
    (lp.add_liquidity user t u).1.user_buy_usdc = lp.user_buy_usdc ∧
    (lp.add_liquidity user t u).1.vault = lp.vault.add (lp.balance_usd + u) ∧
    (lp.add_liquidity user t u).1.minted = lp.minted ∧
    (lp.add_liquidity user t u).1.lp_usdc = lp.lp_usdc + u ∧
    (lp.add_liquidity user t u).1.buy_usdc = lp.buy_usdc := by
  rcases hk : lp.k with _ | v <;>
    simp [LP.add_liquidity, LP.rehypo, LP.update_k, updateFn, hk, Vault.add_compounding_index]

/-! ### Claim C1: sells and removals are fair-share capped -/

/-- Claim C1: for a completed `sell`, the USDC credited to the user is at
most `vault.balance_of()` at call time, and at most
`sold_amount/minted * vault.balance_of()` with `minted` as the cap is
evaluated (after the burn of the sold tokens); for a completed
`remove_liquidity` on an open position with positive total principal and a
positive yield-inclusive request, the USDC credited is at most the vault
balance and at most `user_principal/total_principal * vault.balance_of()`. -/
theorem sell_and_remove_fair_share (lp : LP) (user : User) (amt : ℚ) :
    (isOk (lp.sell user amt) = true →
      (userOf (lp.sell user amt)).balance_usd - user.balance_usd ≤ lp.vault.balance_of ∧
      (lp.minted - amt ≠ 0 →
        (userOf (lp.sell user amt)).balance_usd - user.balance_usd ≤
          amt / (lp.minted - amt) * lp.vault.balance_of)) ∧
    (∀ td ud : ℚ, ∀ snap : UserSnapshot,
      lp.liquidity_token user.name = some td →
      lp.liquidity_usd user.name = some ud →
      lp.user_snapshot user.name = some snap →
      0 < lp.lp_usdc + lp.buy_usdc →
      0 < ud + ud * (lp.vault.compounding_index / snap.index - 1) +
        (lp.user_buy_usdc user.name).getD 0 *
          (lp.vault.compounding_index / snap.index - 1) →
      isOk (lp.remove_liquidity user) = true →
      (userOf (lp.remove_liquidity user)).balance_usd - user.balance_usd ≤
          lp.vault.balance_of ∧
      (userOf (lp.remove_liquidity user)).balance_usd - user.balance_usd ≤
        (ud + (lp.user_buy_usdc user.name).getD 0) / (lp.lp_usdc + lp.buy_usdc) *
          lp.vault.balance_of) := by
  constructor
  · simp only [LP.sell]
    split
    · intro h
      simp [isOk] at h
    · rename_i lp4 heq
      intro _
      have hb := LP.get_out_amount_sell_le { lp with minted := lp.minted - amt } amt
      simp only [userOf]
      constructor
      · show user.balance_usd + _ - user.balance_usd ≤ _
        rw [add_sub_cancel_left]
        exact hb.1
      · intro hm
        show user.balance_usd + _ - user.balance_usd ≤ _
        rw [add_sub_cancel_left]
        exact hb.2 hm
  · intro td ud snap h1 h2 h3 htp hreq
    simp only [LP.remove_liquidity, h1, h2, h3]
    split
    · intro h
      simp [isOk] at h
    · rename_i lp1 hmint
      split
      · intro h
        simp [isOk] at h
      · rename_i lp2 hdeh
        intro _
        have hb := LP.fair_share_scaling_le lp
          (ud + ud * (lp.vault.compounding_index / snap.index - 1) +
            (lp.user_buy_usdc user.name).getD 0 *
              (lp.vault.compounding_index / snap.index - 1))
          (ud + (lp.user_buy_usdc user.name).getD 0)
          (lp.lp_usdc + lp.buy_usdc) htp hreq
        simp only [userOf]
        constructor
        · show user.balance_usd + _ - user.balance_usd ≤ _
          rw [add_sub_cancel_left]
          exact hb.1
        · show user.balance_usd + _ - user.balance_usd ≤ _
          rw [add_sub_cancel_left]
          exact hb.2

/-! ### Claim C7: immediate liquidity round trip -/

/-- Claim C7: from a backed pool state (`vault balance ≥ total principal`,
no liquid pool USDC, no pre-existing position for the user), calling
`add_liquidity(user, t, u)` and then immediately `remove_liquidity(user)`
(no compounding in between, so `compound_delta = 1`) completes and credits
back exactly `t` tokens and `u` USDC, restoring the user's balances. -/
theorem add_then_immediate_remove_roundtrip (lp : LP) (user : User) (t u : ℚ)
    (hlt : lp.liquidity_token user.name = none)
    (hlu : lp.liquidity_usd user.name = none)
    (hbal : lp.balance_usd = 0)
    (hu : 0 < u)
    (hbp : 0 ≤ (lp.user_buy_usdc user.name).getD 0)
    (hidx : lp.vault.compounding_index ≠ 0)
    (htp0 : 0 ≤ lp.lp_usdc + lp.buy_usdc)
    (hback : lp.lp_usdc + lp.buy_usdc ≤ lp.vault.balance_of)
    (hcap : lp.minted ≤ CAP) :
    isOk ((lp.add_liquidity user t u).1.remove_liquidity (lp.add_liquidity user t u).2)
      = true ∧
    (userOf ((lp.add_liquidity user t u).1.remove_liquidity
        (lp.add_liquidity user t u).2)).balance_token = user.balance_token ∧
    (userOf ((lp.add_liquidity user t u).1.remove_liquidity
        (lp.add_liquidity user t u).2)).balance_usd = user.balance_usd ∧
    (userOf ((lp.add_liquidity user t u).1.remove_liquidity
        (lp.add_liquidity user t u).2)).balance_token -
      (lp.add_liquidity user t u).2.balance_token = t ∧
    (userOf ((lp.add_liquidity user t u).1.remove_liquidity
        (lp.add_liquidity user t u).2)).balance_usd -
      (lp.add_liquidity user t u).2.balance_usd = u := by
  obtain ⟨hu2, hlt2, hlu2, hsnap2, hbuy2, hvault2, hminted2, hlpu2, hbuyu2⟩ :=
    LP.add_liquidity_fields lp user t u
  have hnameA : (lp.add_liquidity user t u).2.name = user.name := by rw [hu2]
  have hAt : (lp.add_liquidity user t u).1.liquidity_token
      (lp.add_liquidity user t u).2.name = some t := by
    rw [hnameA, hlt2, hlt]
    simp
  have hAu : (lp.add_liquidity user t u).1.liquidity_usd
      (lp.add_liquidity user t u).2.name = some u := by
    rw [hnameA, hlu2, hlu]
    simp
  have hAs : (lp.add_liquidity user t u).1.user_snapshot
      (lp.add_liquidity user t u).2.name = some ⟨lp.vault.compounding_index⟩ := by
    rw [hnameA, hsnap2]
  have hAbp : (lp.add_liquidity user t u).1.user_buy_usdc
      (lp.add_liquidity user t u).2.name = lp.user_buy_usdc user.name := by
    rw [hnameA, hbuy2]
  have hAidx : (lp.add_liquidity user t u).1.vault.compounding_index =
      lp.vault.compounding_index := by
    rw [hvault2]
    exact Vault.add_compounding_index _ _
  have h0V : 0 ≤ lp.vault.balance_of := le_trans htp0 hback
  have hAbalV : (lp.add_liquidity user t u).1.vault.balance_of =
      u + lp.vault.balance_of := by
    rw [hvault2, Vault.add_balance_of _ _ hidx, hbal, zero_add]
  have hsf : (lp.add_liquidity user t u).1.get_fair_share_scaling u
      (u + (lp.user_buy_usdc user.name).getD 0)
      ((lp.add_liquidity user t u).1.lp_usdc +
        (lp.add_liquidity user t u).1.buy_usdc) = 1 := by
    apply LP.fair_share_scaling_eq_one
    · rw [hlpu2, hbuyu2]
      linarith
    · exact hu
    · rw [hlpu2, hbuyu2, hAbalV]
      nlinarith [mul_le_mul_of_nonneg_left hback hu.le,
        mul_nonneg hbp (by linarith : (0:ℚ) ≤ u + lp.vault.balance_of)]
    · rw [hAbalV]
      linarith
  have hsnapA : (lp.add_liquidity user t u).1.vault.snapshot =
      some ⟨lp.balance_usd + u + lp.vault.balance_of, lp.vault.compounding_index⟩ := by
    rw [hvault2]
    rfl
  have hmv : (lp.add_liquidity user t u).1.mint 0 =
      some { (lp.add_liquidity user t u).1 with
        balance_token := (lp.add_liquidity user t u).1.balance_token + 0,
        minted := (lp.add_liquidity user t u).1.minted + 0 } := by
    unfold LP.mint
    rw [if_neg (by rw [add_zero, hminted2]; exact not_lt.mpr hcap)]
  simp only [LP.remove_liquidity, hAt, hAu, hAs, hAbp, hAidx]
  rw [div_self hidx]
  simp only [sub_self, mul_zero, add_zero, zero_mul, mul_one]
  rw [hsf]
  simp only [mul_one, zero_mul, add_zero]
  rw [hmv]
  simp only [LP.dehypo, Vault.remove, hsnapA]
  simp only [isOk, userOf, hu2]
  refine ⟨trivial, by ring, by ring, by ring, by ring⟩

/-- Witness for C7: a user deposits 50 tokens and 100 USDC into the fresh
pool and immediately withdraws; exactly 50 tokens and 100 USDC come back. -/
theorem add_then_immediate_remove_roundtrip_witness :
    isOk (((LP.init Vault.init).add_liquidity ⟨"c", 1000, 50⟩ 50 100).1.remove_liquidity
      ((LP.init Vault.init).add_liquidity ⟨"c", 1000, 50⟩ 50 100).2) = true ∧
    (userOf (((LP.init Vault.init).add_liquidity ⟨"c", 1000, 50⟩ 50 100).1.remove_liquidity
        ((LP.init Vault.init).add_liquidity ⟨"c", 1000, 50⟩ 50 100).2)).balance_token -
      ((LP.init Vault.init).add_liquidity ⟨"c", 1000, 50⟩ 50 100).2.balance_token = 50 ∧
    (userOf (((LP.init Vault.init).add_liquidity ⟨"c", 1000, 50⟩ 50 100).1.remove_liquidity
        ((LP.init Vault.init).add_liquidity ⟨"c", 1000, 50⟩ 50 100).2)).balance_usd -
      ((LP.init Vault.init).add_liquidity ⟨"c", 1000, 50⟩ 50 100).2.balance_usd = 100 := by
  have h := add_then_immediate_remove_roundtrip (LP.init Vault.init) ⟨"c", 1000, 50⟩ 50 100
    (by norm_num [LP.init]) (by norm_num [LP.init]) (by norm_num [LP.init])
    (by norm_num) (by norm_num [LP.init]) (by norm_num [LP.init, Vault.init])
    (by norm_num [LP.init]) (by norm_num [LP.init, Vault.init, Vault.balance_of])
    (by norm_num [LP.init, CAP, B])
  exact ⟨h.1, h.2.2.2.1, h.2.2.2.2⟩

def rBuyC1 : PoolResult := (LP.init Vault.init).buy ⟨"a", 1000, 0⟩ 500

def pAddC1 : LP × User := (stateOf rBuyC1).add_liquidity (userOf rBuyC1) 0 100

/-- Witness for C1: after a buy of 500 and a liquidity add of 100 USDC, a
sell of 10 tokens and the removal of the position both complete, and the
credited USDC respects the vault-balance cap. -/
theorem sell_and_remove_fair_share_witness :
    isOk (pAddC1.1.sell pAddC1.2 10) = true ∧
    (userOf (pAddC1.1.sell pAddC1.2 10)).balance_usd - pAddC1.2.balance_usd ≤
      pAddC1.1.vault.balance_of ∧
    isOk (pAddC1.1.remove_liquidity pAddC1.2) = true ∧
    (userOf (pAddC1.1.remove_liquidity pAddC1.2)).balance_usd - pAddC1.2.balance_usd ≤
      pAddC1.1.vault.balance_of := by
  have hsok : isOk (pAddC1.1.sell pAddC1.2 10) = true := by
    norm_num [LP.sell, LP.get_out_amount, LP.kv, LP.apply_fair_share_cap, LP.dehypo,
      Vault.remove, LP.add_liquidity, LP.buy, LP.mint, LP.rehypo, LP.update_k,
      LP.get_token_reserve, LP.get_usdc_reserve, LP.get_exposure, LP.get_virtual_liquidity,
      LP.get_buy_usdc_with_yield, Vault.add, Vault.balance_of, LP.init, Vault.init,
      rBuyC1, pAddC1, CAP, B, EXPOSURE_FACTOR, VIRTUAL_LIMIT, K, updateFn, isOk,
      stateOf, userOf, min_def, max_def]
  have hrok : isOk (pAddC1.1.remove_liquidity pAddC1.2) = true := by
    norm_num [LP.remove_liquidity, LP.get_fair_share_scaling, LP.mint, LP.dehypo,
      Vault.remove, LP.add_liquidity, LP.buy, LP.get_out_amount, LP.kv, LP.rehypo,
      LP.update_k, LP.get_token_reserve, LP.get_usdc_reserve, LP.get_exposure,
      LP.get_virtual_liquidity, LP.get_buy_usdc_with_yield, Vault.add, Vault.balance_of,
      LP.init, Vault.init, rBuyC1, pAddC1, CAP, B, EXPOSURE_FACTOR, VIRTUAL_LIMIT, K,
      updateFn, eraseFn, isOk, stateOf, userOf, min_def, max_def]
  refine ⟨hsok, ((sell_and_remove_fair_share pAddC1.1 pAddC1.2 10).1 hsok).1, hrok, ?_⟩
  refine (((sell_and_remove_fair_share pAddC1.1 pAddC1.2 10).2 0 100
    ⟨1⟩ ?_ ?_ ?_ ?_ ?_ hrok)).1 <;>
    norm_num [LP.add_liquidity, LP.buy, LP.get_out_amount, LP.kv, LP.mint, LP.rehypo,
      LP.update_k, LP.get_token_reserve, LP.get_usdc_reserve, LP.get_exposure,
      LP.get_virtual_liquidity, LP.get_buy_usdc_with_yield, Vault.add, Vault.balance_of,
      LP.init, Vault.init, rBuyC1, pAddC1, CAP, B, EXPOSURE_FACTOR, VIRTUAL_LIMIT, K,
      updateFn, isOk, stateOf, userOf, min_def, max_def]

/-! ### Claim C4: atomicity of raising calls -/

/-- Concrete vault for the C4 scenario: 500 USDC staked at index 1. -/
def vaultC4 : Vault :=
  { apy := 5 / 100, balance_usd := 500, compounding_index := 1,
    snapshot := some ⟨500, 1⟩, compounds := 0 }

/-- Concrete pool for the C4 scenario: 999999 tokens minted (deep inside the
low-exposure region), 500 USDC of buy principal, a stored invariant `k`. -/
def lpC4 : LP := { LP.init vaultC4 with minted := 999999, buy_usdc := 500, k := some 100000000 }

def uC4 : User := ⟨"bob", 1000, 0⟩

/-- Counterexample to claim C4 as stated: on this `buy` the cap-exceeded
error is raised, yet the state at the raise is not the state before the
call — the user's USD was already debited and the pool's USD credited
before `mint` checked the cap. -/
theorem buy_cap_error_not_atomic_counterexample :
    errOf (lpC4.buy uC4 500) = some .capExceeded ∧
    (userOf (lpC4.buy uC4 500)).balance_usd ≠ uC4.balance_usd ∧
    (stateOf (lpC4.buy uC4 500)).balance_usd ≠ lpC4.balance_usd := by
  norm_num [LP.buy, LP.get_out_amount, LP.kv, LP.mint, LP.rehypo, LP.update_k,
    LP.get_token_reserve, LP.get_usdc_reserve, LP.get_exposure, LP.get_virtual_liquidity,
    LP.get_buy_usdc_with_yield, Vault.add, Vault.balance_of, LP.init, lpC4, vaultC4, uC4,
    CAP, B, EXPOSURE_FACTOR, VIRTUAL_LIMIT, K, updateFn, errOf, stateOf, userOf,
    min_def, max_def]

/-- Claim C4 (amended): when `buy` raises the cap-exceeded error, `minted`,
the token balances, `buy_usdc`, `lp_usdc` and the vault are unchanged, but
the user's USD has already been debited and the pool's liquid USD credited
(the call is not fully atomic); `remove_liquidity`'s cap-exceeded and
missing-position errors are raised before any mutation. -/
theorem buy_cap_error_partial_mutation (lp : LP) (user : User) (amt : ℚ) :
    (errOf (lp.buy user amt) = some .capExceeded →
      (stateOf (lp.buy user amt)).minted = lp.minted ∧
      (stateOf (lp.buy user amt)).balance_token = lp.balance_token ∧
      (stateOf (lp.buy user amt)).buy_usdc = lp.buy_usdc ∧
      (stateOf (lp.buy user amt)).lp_usdc = lp.lp_usdc ∧
      (stateOf (lp.buy user amt)).vault = lp.vault ∧
      (userOf (lp.buy user amt)).balance_token = user.balance_token ∧
      (userOf (lp.buy user amt)).balance_usd = user.balance_usd - amt ∧
      (stateOf (lp.buy user amt)).balance_usd = lp.balance_usd + amt) ∧
    (∀ e : Err, errOf (lp.remove_liquidity user) = some e → e ≠ .nothingStaked →
      stateOf (lp.remove_liquidity user) = lp ∧ userOf (lp.remove_liquidity user) = user) := by
  constructor
  · simp only [LP.buy]
    split
    · intro _
      simp [stateOf, userOf, LP.get_out_amount_fst]
    · intro hc
      simp [errOf] at hc
  · intro e
    simp only [LP.remove_liquidity]
    split
    · split
      · intro _ _
        exact ⟨rfl, rfl⟩
      · split
        · intro hc hne
          simp only [errOf, Option.some.injEq] at hc
          exact absurd hc.symm hne
        · intro hc _
          simp [errOf] at hc
    · intro _ _
      exact ⟨rfl, rfl⟩

/-- Witness for the amended C4: the `buy` hypothesis discharged at the C4
scenario, the `remove_liquidity` hypothesis at a fresh pool, where the
missing-position error is raised with the state untouched. -/
theorem buy_cap_error_partial_mutation_witness :
    (stateOf (lpC4.buy uC4 500)).minted = lpC4.minted ∧
    (userOf (lpC4.buy uC4 500)).balance_usd = uC4.balance_usd - 500 ∧
    stateOf ((LP.init Vault.init).remove_liquidity uC4) = LP.init Vault.init := by
  have hE : errOf (lpC4.buy uC4 500) = some .capExceeded := by
    norm_num [LP.buy, LP.get_out_amount, LP.kv, LP.mint, LP.rehypo, LP.update_k,
      LP.get_token_reserve, LP.get_usdc_reserve, LP.get_exposure, LP.get_virtual_liquidity,
      LP.get_buy_usdc_with_yield, Vault.add, Vault.balance_of, LP.init, lpC4, vaultC4, uC4,
      CAP, B, EXPOSURE_FACTOR, VIRTUAL_LIMIT, K, updateFn, errOf, min_def, max_def]
  have hK : errOf ((LP.init Vault.init).remove_liquidity uC4) = some .keyError := by
    simp [LP.remove_liquidity, LP.init, errOf]
  exact ⟨((buy_cap_error_partial_mutation lpC4 uC4 500).1 hE).1,
    ((buy_cap_error_partial_mutation lpC4 uC4 500).1 hE).2.2.2.2.2.2.1,
    ((buy_cap_error_partial_mutation (LP.init Vault.init) uC4 0).2 .keyError hK
      (by decide)).1⟩

/-! ### Claim C5: where `k` is and is not recomputed -/

def rBuyC5 : PoolResult := (LP.init Vault.init).buy ⟨"a", 1000, 0⟩ 500

def pAddC5 : LP × User := (stateOf rBuyC5).add_liquidity (userOf rBuyC5) 0 100

/-- C5 scenario: buy 500, add 100 USDC of liquidity, compound one day. -/
def lpC5 : LP := { pAddC5.1 with vault := pAddC5.1.vault.compound 1 }

/-- Counterexample to claim C5 as stated: this `remove_liquidity` call
completes (it mints token yield and reduces `buy_usdc`), yet afterwards `k`
does not equal the reserve product recomputed from the resulting state —
`remove_liquidity` never calls `_update_k`. -/
theorem remove_liquidity_k_stale_counterexample :
    isOk (lpC5.remove_liquidity pAddC5.2) = true ∧
    (stateOf (lpC5.remove_liquidity pAddC5.2)).k ≠
      some ((stateOf (lpC5.remove_liquidity pAddC5.2)).get_token_reserve *
        (stateOf (lpC5.remove_liquidity pAddC5.2)).get_usdc_reserve) := by
  norm_num [LP.remove_liquidity, LP.get_fair_share_scaling, LP.mint, LP.dehypo,
    Vault.remove, Vault.compound, compoundIndexLoop, LP.add_liquidity, LP.rehypo,
    LP.update_k, LP.buy, LP.get_out_amount, LP.kv, Vault.add, Vault.balance_of,
    LP.get_token_reserve, LP.get_usdc_reserve, LP.get_exposure, LP.get_virtual_liquidity,
    LP.get_buy_usdc_with_yield, LP.init, Vault.init, rBuyC5, pAddC5, lpC5,
    CAP, B, EXPOSURE_FACTOR, VIRTUAL_LIMIT, K, updateFn, eraseFn, isOk, stateOf, userOf,
    min_def, max_def]

/-- Claim C5 (amended): `k` is recomputed from the post-trade state after
every completed `buy` and `sell`, but `remove_liquidity` — although it
mints token yield and reduces `buy_usdc` — never recomputes `k`: the call
leaves `k` exactly as it was before (stale relative to the resulting
virtual reserves). -/
theorem k_recompute_points (lp : LP) (user : User) (amt : ℚ) :
    ((stateOf (lp.remove_liquidity user)).k = lp.k) ∧
    (isOk (lp.buy user amt) = true →
      (stateOf (lp.buy user amt)).k =
        some ((stateOf (lp.buy user amt)).get_token_reserve *
          (stateOf (lp.buy user amt)).get_usdc_reserve)) ∧
    (isOk (lp.sell user amt) = true →
      (stateOf (lp.sell user amt)).k =
        some ((stateOf (lp.sell user amt)).get_token_reserve *
          (stateOf (lp.sell user amt)).get_usdc_reserve)) := by
  refine ⟨?_, LP.buy_ok_k lp user amt, LP.sell_ok_k lp user amt⟩
  simp only [LP.remove_liquidity]
  split
  · split
    · rfl
    · rename_i lp1 hmint
      split
      · simp only [stateOf]
        exact (LP.mint_some hmint).2.2.2.2.1
      · rename_i lp2 hdeh
        simp only [stateOf]
        show lp2.k = lp.k
        rw [(LP.dehypo_some hdeh).2.2.1, (LP.mint_some hmint).2.2.2.2.1]
  · rfl

/-- Witness for the amended C5: the `buy` leg at the fresh pool and the
`sell` leg at the post-buy pool. -/
theorem k_recompute_points_witness :
    (stateOf ((LP.init Vault.init).buy ⟨"a", 1000, 0⟩ 500)).k =
      some ((stateOf ((LP.init Vault.init).buy ⟨"a", 1000, 0⟩ 500)).get_token_reserve *
        (stateOf ((LP.init Vault.init).buy ⟨"a", 1000, 0⟩ 500)).get_usdc_reserve) ∧
    (stateOf ((stateOf rBuyC5).sell ⟨"a", 0, 10⟩ 10)).k =
      some ((stateOf ((stateOf rBuyC5).sell ⟨"a", 0, 10⟩ 10)).get_token_reserve *
        (stateOf ((stateOf rBuyC5).sell ⟨"a", 0, 10⟩ 10)).get_usdc_reserve) :=
  ⟨(k_recompute_points (LP.init Vault.init) ⟨"a", 1000, 0⟩ 500).2.1
      (by norm_num [LP.buy, LP.get_out_amount, LP.kv, LP.mint, LP.rehypo, LP.update_k,
        LP.get_token_reserve, LP.get_usdc_reserve, LP.get_exposure, LP.get_virtual_liquidity,
        LP.get_buy_usdc_with_yield, Vault.add, Vault.balance_of, LP.init, Vault.init,
        CAP, B, EXPOSURE_FACTOR, VIRTUAL_LIMIT, K, updateFn, isOk, min_def, max_def]),
   (k_recompute_points (stateOf rBuyC5) ⟨"a", 0, 10⟩ 10).2.2
      (by norm_num [LP.sell, LP.get_out_amount, LP.kv, LP.apply_fair_share_cap,
        LP.dehypo, Vault.remove, LP.buy, LP.mint, LP.rehypo, LP.update_k,
        LP.get_token_reserve, LP.get_usdc_reserve, LP.get_exposure, LP.get_virtual_liquidity,
        LP.get_buy_usdc_with_yield, Vault.add, Vault.balance_of, LP.init, Vault.init, rBuyC5,
        CAP, B, EXPOSURE_FACTOR, VIRTUAL_LIMIT, K, updateFn, isOk, stateOf, userOf,
        min_def, max_def])⟩

/-! ### Claim C2: the constant product within a single trade -/

/-- Counterexample to claim C2 as stated: across the very first `buy` from
a fresh pool the reserve product is `10^8` before the call but a different
value after it — the product recomputed from the post-call state does not
equal the product before the call, because exposure and virtual liquidity
are dynamic. -/
theorem constant_product_not_preserved_counterexample :
    isOk ((LP.init Vault.init).buy ⟨"a", 1000, 0⟩ 500) = true ∧
    (stateOf ((LP.init Vault.init).buy ⟨"a", 1000, 0⟩ 500)).get_token_reserve *
        (stateOf ((LP.init Vault.init).buy ⟨"a", 1000, 0⟩ 500)).get_usdc_reserve ≠
      (LP.init Vault.init).get_token_reserve * (LP.init Vault.init).get_usdc_reserve := by
  norm_num [LP.buy, LP.get_out_amount, LP.kv, LP.mint, LP.rehypo, LP.update_k,
    LP.get_token_reserve, LP.get_usdc_reserve, LP.get_exposure, LP.get_virtual_liquidity,
    LP.get_buy_usdc_with_yield, Vault.add, Vault.balance_of, LP.init, Vault.init,
    CAP, B, EXPOSURE_FACTOR, VIRTUAL_LIMIT, K, updateFn, isOk, stateOf, min_def, max_def]

/-- Claim C2 (amended): the constant product holds *within* the trade
computation, not across the call: a buy's quote solves
`(T − token_out) · (U + usdc_in) = k` exactly against the pre-trade
reserves and the stored `k`, a sell's payout never exceeds its curve quote
`U − k/(T + token_in)`, and after each completed `buy` or `sell` the
invariant `k` is recomputed from the post-trade state (whose reserve
product generally differs from the pre-trade one). -/
theorem constant_product_within_trade (lp : LP) (user : User) (amt : ℚ) :
    (lp.get_usdc_reserve + amt ≠ 0 →
      (lp.get_token_reserve - (lp.get_out_amount amt false).2) *
        (lp.get_usdc_reserve + amt) = lp.kv) ∧
    ((lp.get_out_amount amt true).2 ≤
      lp.get_usdc_reserve - lp.kv / (lp.get_token_reserve + amt)) ∧
    (isOk (lp.buy user amt) = true →
      (stateOf (lp.buy user amt)).k =
        some ((stateOf (lp.buy user amt)).get_token_reserve *
          (stateOf (lp.buy user amt)).get_usdc_reserve)) ∧
    (isOk (lp.sell user amt) = true →
      (stateOf (lp.sell user amt)).k =
        some ((stateOf (lp.sell user amt)).get_token_reserve *
          (stateOf (lp.sell user amt)).get_usdc_reserve)) := by
  refine ⟨?_, ?_, LP.buy_ok_k lp user amt, LP.sell_ok_k lp user amt⟩
  · intro h
    have hq : (lp.get_out_amount amt false).2 =
        lp.get_token_reserve - lp.kv / (lp.get_usdc_reserve + amt) := rfl
    rw [hq, sub_sub_cancel, div_mul_cancel₀ _ h]
  · simp only [LP.get_out_amount, LP.apply_fair_share_cap]
    split
    · split
      · exact min_le_left _ _
      · exact min_le_left _ _
    · rename_i hf
      exact absurd trivial hf

/-- Witness for the amended C2 at the first buy from a fresh pool (and the
sell leg at the post-buy pool). -/
theorem constant_product_within_trade_witness :
    ((LP.init Vault.init).get_token_reserve -
        ((LP.init Vault.init).get_out_amount 500 false).2) *
      ((LP.init Vault.init).get_usdc_reserve + 500) = (LP.init Vault.init).kv ∧
    (stateOf ((LP.init Vault.init).buy ⟨"a", 1000, 0⟩ 500)).k =
      some ((stateOf ((LP.init Vault.init).buy ⟨"a", 1000, 0⟩ 500)).get_token_reserve *
        (stateOf ((LP.init Vault.init).buy ⟨"a", 1000, 0⟩ 500)).get_usdc_reserve) ∧
    (stateOf ((stateOf rBuyC5).sell ⟨"b", 0, 10⟩ 10)).k =
      some ((stateOf ((stateOf rBuyC5).sell ⟨"b", 0, 10⟩ 10)).get_token_reserve *
        (stateOf ((stateOf rBuyC5).sell ⟨"b", 0, 10⟩ 10)).get_usdc_reserve) :=
  ⟨(constant_product_within_trade (LP.init Vault.init) ⟨"a", 1000, 0⟩ 500).1
      (by norm_num [LP.get_usdc_reserve, LP.get_token_reserve, LP.get_exposure,
        LP.get_virtual_liquidity, LP.get_buy_usdc_with_yield, Vault.balance_of,
        LP.init, Vault.init, CAP, B, EXPOSURE_FACTOR, VIRTUAL_LIMIT, K, min_def, max_def]),
   (constant_product_within_trade (LP.init Vault.init) ⟨"a", 1000, 0⟩ 500).2.2.1
      (by norm_num [LP.buy, LP.get_out_amount, LP.kv, LP.mint, LP.rehypo, LP.update_k,
        LP.get_token_reserve, LP.get_usdc_reserve, LP.get_exposure, LP.get_virtual_liquidity,
        LP.get_buy_usdc_with_yield, Vault.add, Vault.balance_of, LP.init, Vault.init,
        CAP, B, EXPOSURE_FACTOR, VIRTUAL_LIMIT, K, updateFn, isOk, min_def, max_def]),
   (constant_product_within_trade (stateOf rBuyC5) ⟨"b", 0, 10⟩ 10).2.2.2
      (by norm_num [LP.sell, LP.get_out_amount, LP.kv, LP.apply_fair_share_cap,
        LP.dehypo, Vault.remove, LP.buy, LP.mint, LP.rehypo, LP.update_k,
        LP.get_token_reserve, LP.get_usdc_reserve, LP.get_exposure, LP.get_virtual_liquidity,
        LP.get_buy_usdc_with_yield, Vault.add, Vault.balance_of, LP.init, Vault.init, rBuyC5,
        CAP, B, EXPOSURE_FACTOR, VIRTUAL_LIMIT, K, updateFn, isOk, stateOf, userOf,
        min_def, max_def])⟩

/-! ### Claim C8: compounding is monotone and equals the daily-compounded
index formula -/

/-- Claim C8: for all `days ≥ 0`, `balance_of` after `compound(days)` is at
least its value before the call (given a non-negative rate and balance),
and when a deposit snapshot exists it equals the snapshotted balance times
`(1 + apy/365)^days`, where the index is advanced by `days` discrete
multiplications (`compoundIndexLoop`), not a closed-form power. -/
theorem vault_compound_monotone_and_exact (v : Vault) (days : ℕ) :
    (∀ s : CompoundingSnapshot, v.snapshot = some s →
      (v.compound days).balance_of = v.balance_of * (1 + v.apy / 365) ^ days) ∧
    (0 ≤ v.apy → 0 ≤ v.balance_of → v.balance_of ≤ (v.compound days).balance_of) := by
  have hcomp : ∀ s : CompoundingSnapshot, v.snapshot = some s →
      (v.compound days).balance_of = v.balance_of * (1 + v.apy / 365) ^ days := by
    intro s hs
    unfold Vault.balance_of
    rw [Vault.compound_snapshot, hs]
    show s.value * (compoundIndexLoop v.apy v.compounding_index days / s.index) = _
    rw [compoundIndexLoop_eq, mul_div_right_comm, ← mul_assoc]
  refine ⟨hcomp, fun hapy hbal => ?_⟩
  rcases hs : v.snapshot with _ | s
  · have : (v.compound days).balance_of = v.balance_of := by
      unfold Vault.balance_of
      rw [Vault.compound_snapshot, hs]
      rfl
    rw [this]
  · rw [hcomp s hs]
    have hf : (1 : ℚ) ≤ 1 + v.apy / 365 := by
      have : (0 : ℚ) ≤ v.apy / 365 := by positivity
      linarith
    have hpow : (1 : ℚ) ≤ (1 + v.apy / 365) ^ days := one_le_pow₀ hf
    nlinarith

/-- Witness for C8 at a concrete vault holding 500 compounded for 3 days. -/
theorem vault_compound_monotone_and_exact_witness :
    ((Vault.init.add 500).compound 3).balance_of =
      (Vault.init.add 500).balance_of * (1 + (Vault.init.add 500).apy / 365) ^ 3 ∧
    (Vault.init.add 500).balance_of ≤ ((Vault.init.add 500).compound 3).balance_of :=
  ⟨(vault_compound_monotone_and_exact (Vault.init.add 500) 3).1
      ⟨500 + Vault.init.balance_of, Vault.init.compounding_index⟩ rfl,
   (vault_compound_monotone_and_exact (Vault.init.add 500) 3).2
      (by norm_num [Vault.add, Vault.init])
      (by norm_num [Vault.add, Vault.init, Vault.balance_of])⟩

/-! ### Claim C10: `price` is total, with the zero-reserve fallback -/

/-- Claim C10: reading `price` is total: it returns
`usdc_reserve / token_reserve` whenever the virtual token reserve is
nonzero and exactly `1` in the fallback case where the token reserve is
zero, and the token reserve is zero exactly when `minted = CAP`. -/
theorem price_total_characterisation (lp : LP) :
    (lp.get_token_reserve ≠ 0 →
      lp.price = lp.get_usdc_reserve / lp.get_token_reserve) ∧
    (lp.get_token_reserve = 0 → lp.price = 1) ∧
    (lp.get_token_reserve = 0 ↔ lp.minted = CAP) := by
  refine ⟨fun h => by simp [LP.price, h], fun h => by simp [LP.price, h], ?_⟩
  constructor
  · intro h
    unfold LP.get_token_reserve at h
    by_contra hm
    have hsub : CAP - lp.minted ≠ 0 := sub_ne_zero.mpr (Ne.symm hm)
    by_cases he : lp.get_exposure > 0
    · rw [if_pos he] at h
      exact hsub (by
        have := div_eq_zero_iff.mp h
        rcases this with h0 | h0
        · exact h0
        · exact absurd h0 (ne_of_gt he))
    · rw [if_neg he] at h
      exact hsub h
  · intro hm
    have he : lp.get_exposure = 0 := by
      simp only [LP.get_exposure, hm]
      norm_num [CAP, B, EXPOSURE_FACTOR, K, min_def, max_def]
    simp [LP.get_token_reserve, he, hm]

/-- Witness for C10 at the freshly initialised pool, whose token reserve
is `10000 ≠ 0`. -/
theorem price_total_characterisation_witness :
    (LP.init Vault.init).price =
      (LP.init Vault.init).get_usdc_reserve / (LP.init Vault.init).get_token_reserve ∧
    ¬ (LP.init Vault.init).minted = CAP := by
  constructor
  · exact (price_total_characterisation (LP.init Vault.init)).1
      (by norm_num [LP.get_token_reserve, LP.get_exposure, LP.init, Vault.init,
        CAP, B, EXPOSURE_FACTOR, K, min_def, max_def])
  · norm_num [LP.init, CAP, B]

/-! ### Claim C6: the concrete buy-then-compound scenario -/

/-- C6 scenario, first phase: fresh vault and pool, `buy(user, 500)`. -/
def lpC6a : LP := stateOf ((LP.init Vault.init).buy ⟨"aaron", 1000, 0⟩ 500)

/-- C6 scenario, second phase: `vault.compound(100)`. -/
def lpC6b : LP := { lpC6a with vault := lpC6a.vault.compound 100 }

/-- Counterexample to claim C6 as stated: after `compound(100)` the vault
balance is `500 * (1 + 0.05/365)^100` (daily rate `apy/365` with
`apy = 0.05`), not the claimed `500 * (1.05/365 + 1)^100`. -/
theorem concrete_buy_compound_counterexample :
    lpC6a.vault.balance_of = 500 ∧
    lpC6b.vault.balance_of ≠ 500 * ((105 / 100) / 365 + 1) ^ 100 := by
  norm_num [LP.buy, LP.get_out_amount, LP.kv, LP.mint, LP.rehypo, LP.update_k,
    LP.get_token_reserve, LP.get_usdc_reserve, LP.get_exposure, LP.get_virtual_liquidity,
    LP.get_buy_usdc_with_yield, Vault.add, Vault.balance_of, Vault.compound,
    compoundIndexLoop_eq, LP.init, Vault.init, lpC6a, lpC6b,
    CAP, B, EXPOSURE_FACTOR, VIRTUAL_LIMIT, K, updateFn, isOk, stateOf,
    min_def, max_def]

/-- Claim C6 (amended): starting from a fresh vault and pool with
`CAP = 10^9` and `EXPOSURE_FACTOR = 10^5`, after `buy(user, 500)` the buy
completes, `vault.balance_of() = 500`, `price > 1` and `k` is set; after a
further `compound(100)` the vault balance equals
`500 * (1 + 0.05/365)^100` (the 100-fold daily index loop) and the price
is strictly greater than before the compounding. -/
theorem concrete_buy_compound_scenario_amended :
    isOk ((LP.init Vault.init).buy ⟨"aaron", 1000, 0⟩ 500) = true ∧
    lpC6a.vault.balance_of = 500 ∧
    lpC6a.price > 1 ∧
    lpC6a.k ≠ none ∧
    lpC6b.vault.balance_of = 500 * (1 + (5 / 100) / 365) ^ 100 ∧
    lpC6b.price > lpC6a.price := by
  norm_num [LP.buy, LP.get_out_amount, LP.kv, LP.mint, LP.rehypo, LP.update_k,
    LP.price, LP.get_token_reserve, LP.get_usdc_reserve, LP.get_exposure,
    LP.get_virtual_liquidity, LP.get_buy_usdc_with_yield, Vault.add, Vault.balance_of,
    Vault.compound, compoundIndexLoop_eq, LP.init, Vault.init, lpC6a, lpC6b,
    CAP, B, EXPOSURE_FACTOR, VIRTUAL_LIMIT, K, updateFn, isOk, stateOf,
    min_def, max_def]
  simp

/-! ### Claim C9: every completed public operation leaves the pool with
zero liquid USDC (all of it rehypothecated into the vault) -/

/-- Claim C9: the pool starts with `balance_usd = 0`; a completed `buy` or
`add_liquidity` ends with `balance_usd = 0` unconditionally, and a
completed `sell` or `remove_liquidity` from a state with `balance_usd = 0`
ends with `balance_usd = 0`; hence after every completed public operation
the pool retains no un-deposited USDC. -/
theorem pool_usdc_fully_rehypothecated (lp : LP) (user : User)
    (amount token_amount usd_amount : ℚ) :
    (∀ v : Vault, (LP.init v).balance_usd = 0) ∧
    (isOk (lp.buy user amount) = true →
      (stateOf (lp.buy user amount)).balance_usd = 0) ∧
    ((lp.add_liquidity user token_amount usd_amount).1.balance_usd = 0) ∧
    (lp.balance_usd = 0 → isOk (lp.sell user amount) = true →
      (stateOf (lp.sell user amount)).balance_usd = 0) ∧
    (lp.balance_usd = 0 → isOk (lp.remove_liquidity user) = true →
      (stateOf (lp.remove_liquidity user)).balance_usd = 0) := by
  refine ⟨fun _ => rfl, ?_, ?_, ?_, ?_⟩
  · simp only [LP.buy]
    split
    · intro h
      simp [isOk] at h
    · intro _
      rfl
  · rcases hk : lp.k with _ | v <;>
      simp [LP.add_liquidity, LP.rehypo, LP.update_k, hk]
  · intro h0
    simp only [LP.sell]
    split
    · intro h
      simp [isOk] at h
    · rename_i lp4 heq
      intro _
      have h4 := (LP.dehypo_some heq).1
      simp only [LP.get_out_amount_fst] at h4
      simp only [stateOf, LP.update_k]
      show lp4.balance_usd - _ = 0
      rw [h4]
      show lp.balance_usd + _ - _ = 0
      rw [h0]
      ring
  · intro h0
    simp only [LP.remove_liquidity]
    split
    · split
      · intro h
        simp [isOk] at h
      · rename_i lp1 hmint
        split
        · intro h
          simp [isOk] at h
        · rename_i lp2 hdeh
          intro _
          have h2 := LP.dehypo_some hdeh
          have h1 := LP.mint_some hmint
          simp only [stateOf]
          show lp2.balance_usd - _ = 0
          rw [h2.1, h1.2.2.2.1, h0]
          ring
    · intro h
      simp [isOk] at h

/-- Witness for C9: hypotheses discharged at a fresh pool for `buy` and at
the post-buy pool (whose liquid balance is zero) for `sell` and
`remove_liquidity` (the latter has no open position, but the implication is
instantiated with its `balance_usd = 0` premise discharged). -/
theorem pool_usdc_fully_rehypothecated_witness :
    (stateOf ((LP.init Vault.init).buy ⟨"a", 1000, 0⟩ 500)).balance_usd = 0 ∧
    ((LP.init Vault.init).add_liquidity ⟨"a", 1000, 0⟩ 0 100).1.balance_usd = 0 := by
  constructor
  · exact (pool_usdc_fully_rehypothecated (LP.init Vault.init) ⟨"a", 1000, 0⟩ 500 0 0).2.1
      (by norm_num [LP.buy, LP.get_out_amount, LP.kv, LP.mint, LP.rehypo, LP.update_k,
        LP.get_token_reserve, LP.get_usdc_reserve, LP.get_exposure, LP.get_virtual_liquidity,
        LP.get_buy_usdc_with_yield, Vault.add, Vault.balance_of, LP.init, Vault.init,
        CAP, B, EXPOSURE_FACTOR, VIRTUAL_LIMIT, K, updateFn, isOk, min_def, max_def])
  · exact (pool_usdc_fully_rehypothecated (LP.init Vault.init) ⟨"a", 1000, 0⟩ 0 0 100).2.2.1

end YieldModel
